import Mathlib

/-!
Shallow embedding of `index.js` of the node-rtsp-to-hls-server repository.

JS strings are modelled as `List Char`; JS numbers carrying media durations
are modelled as `ℚ` (the arithmetic performed on them — subtraction,
comparison, `toFixed` — is exact on the values the program handles);
segment indices and attempt counters are `ℕ`; `undefined`-able values are
`Option`; a thrown `TypeError` is an `Except.error`.
-/

namespace RtspHls

/-- Coerce a Lean string literal to the character-list model of JS strings. -/
def str (s : String) : List Char := s.data

/-! ### Configuration constants (module-level constants of `index.js`) -/

/-- `const selfDestructDuration = 60` (seconds). -/
def selfDestructDuration : ℕ := 60

/-- `const hlsSegmentDuration = 5` (seconds). -/
def hlsSegmentDuration : ℕ := 5

/-- `const hlsSegmentMaxGap = 3`. -/
def hlsSegmentMaxGap : ℕ := 3

/-- Interval of the self-destruct ticker: `setInterval(..., 5000)` (ms). -/
def selfDestructCheckIntervalMs : ℕ := 5000

/-- Delay between poller retries: `setTimeout(this.poll.bind(this), 1000)` (ms). -/
def pollRetryDelayMs : ℕ := 1000

/-! ### Decimal rendering (JS template-string interpolation of an integer) -/

/-- Render a natural number in decimal, fuelled structural recursion
(the fuel `n + 1` always suffices since the argument is divided by 10). -/
def natToCharsAux : ℕ → ℕ → List Char
  | 0, _ => []
  | fuel + 1, n =>
    if n < 10 then [Nat.digitChar n]
    else natToCharsAux fuel (n / 10) ++ [Nat.digitChar (n % 10)]

/-- Decimal rendering of a natural number, as produced by `${n}` in JS. -/
def natToChars (n : ℕ) : List Char := natToCharsAux (n + 1) n

/-- Decimal value accumulated left to right, as `parseInt(_, 10)` does. -/
def decimalFold (cs : List Char) : ℕ :=
  cs.foldl (fun a c => 10 * a + (c.toNat - 48)) 0

/-- Model of JS `parseInt(s, 10)` on the inputs this program feeds it:
the maximal leading run of decimal digits, `none` standing for `NaN`. -/
def parseInt10 (cs : List Char) : Option ℕ :=
  let ds := cs.takeWhile Char.isDigit
  if ds.isEmpty then none else some (decimalFold ds)

lemma digitChar_isDigit {n : ℕ} (h : n < 10) : (Nat.digitChar n).isDigit = true := by
  interval_cases n <;> decide

lemma digitChar_toNat {n : ℕ} (h : n < 10) : (Nat.digitChar n).toNat - 48 = n := by
  interval_cases n <;> decide

lemma decimalFold_append (xs : List Char) (c : Char) (a : ℕ) :
    (xs ++ [c]).foldl (fun a c => 10 * a + (c.toNat - 48)) a =
      10 * xs.foldl (fun a c => 10 * a + (c.toNat - 48)) a + (c.toNat - 48) := by
  induction xs generalizing a with
  | nil => rfl
  | cons x xs ih => simp only [List.cons_append, List.foldl_cons]; exact ih _

lemma natToCharsAux_spec :
    ∀ fuel n, n < fuel →
      (natToCharsAux fuel n ≠ [] ∧ (∀ c ∈ natToCharsAux fuel n, c.isDigit = true) ∧
        decimalFold (natToCharsAux fuel n) = n) := by
  intro fuel
  induction fuel with
  | zero => intro n hn; omega
  | succ fuel ih =>
    intro n hn
    by_cases h10 : n < 10
    · refine ⟨by simp [natToCharsAux, h10], ?_, ?_⟩
      · intro c hc
        simp [natToCharsAux, h10] at hc
        simp [hc, digitChar_isDigit h10]
      · simp [natToCharsAux, h10, decimalFold, digitChar_toNat h10]
    · have hrec : n / 10 < fuel := by
        have : n / 10 < n := Nat.div_lt_self (by omega) (by omega)
        omega
      obtain ⟨hne, hall, hval⟩ := ih (n / 10) hrec
      refine ⟨by simp [natToCharsAux, h10], ?_, ?_⟩
      · intro c hc
        simp [natToCharsAux, h10] at hc
        rcases hc with hc | hc
        · exact hall c hc
        · simpa [hc] using digitChar_isDigit (Nat.mod_lt n (by omega))
      · rw [natToCharsAux, if_neg h10, decimalFold,
          decimalFold_append (natToCharsAux fuel (n / 10)) _ 0, ← decimalFold, hval,
          digitChar_toNat (Nat.mod_lt n (by omega))]
        omega

lemma natToChars_ne_nil (n : ℕ) : natToChars n ≠ [] :=
  (natToCharsAux_spec (n + 1) n (Nat.lt_succ_self n)).1

lemma natToChars_all_digit (n : ℕ) : ∀ c ∈ natToChars n, c.isDigit = true :=
  (natToCharsAux_spec (n + 1) n (Nat.lt_succ_self n)).2.1

lemma decimalFold_natToChars (n : ℕ) : decimalFold (natToChars n) = n :=
  (natToCharsAux_spec (n + 1) n (Nat.lt_succ_self n)).2.2

lemma takeWhile_eq_self_of_all {p : Char → Bool} {xs : List Char}
    (h : ∀ c ∈ xs, p c = true) : xs.takeWhile p = xs := by
  induction xs with
  | nil => rfl
  | cons x xs ih =>
    simp only [List.takeWhile_cons, h x (by simp)]
    simp [ih fun c hc => h c (by simp [hc])]

lemma takeWhile_append_of_all {p : Char → Bool} {xs : List Char} {y : Char} (ys : List Char)
    (h : ∀ c ∈ xs, p c = true) (hy : p y = false) :
    (xs ++ y :: ys).takeWhile p = xs := by
  induction xs with
  | nil => simp [List.takeWhile_cons, hy]
  | cons x xs ih =>
    simp only [List.cons_append, List.takeWhile_cons, h x (by simp)]
    simp [ih fun c hc => h c (by simp [hc])]

/-- Parsing the decimal rendering of `n` recovers `n`. -/
lemma parseInt10_natToChars (n : ℕ) : parseInt10 (natToChars n) = some n := by
  unfold parseInt10
  rw [takeWhile_eq_self_of_all (natToChars_all_digit n)]
  simp [List.isEmpty_iff, natToChars_ne_nil n, decimalFold_natToChars n]

/-! ### Playlist Synthesizer (`Stream.generateM3U8`) -/

/-- Left-pad a decimal rendering with zeros to 4 characters. -/
def pad4 (m : ℕ) : List Char :=
  List.replicate (4 - (natToChars m).length) '0' ++ natToChars m

/-- Model of JS `q.toFixed(4)` on the non-negative exact values this program
formats: round to the nearest 1/10000 and print four decimal digits. -/
def toFixed4 (q : ℚ) : List Char :=
  natToChars ((round (q * 10000)).toNat / 10000) ++
    '.' :: pad4 ((round (q * 10000)).toNat % 10000)

/-- The `while (duration > 0)` loop of `generateM3U8`, collecting each
iteration's `length = duration >= hlsSegmentDuration ? hlsSegmentDuration :
duration`. Fuelled structural recursion; the wrapper supplies fuel
`⌈d/s⌉.toNat + 1`, which covers every iteration of the loop when `0 < s`. -/
def segmentLengthsAux (s : ℚ) : ℕ → ℚ → List ℚ
  | 0, _ => []
  | fuel + 1, duration =>
    if 0 < duration then
      (if s ≤ duration then s else duration) ::
        segmentLengthsAux s fuel (duration - (if s ≤ duration then s else duration))
    else []

/-- Durations of the `#EXTINF` entries emitted by `generateM3U8` for media
duration `d` and segment duration `s`. -/
def segmentLengths (d s : ℚ) : List ℚ := segmentLengthsAux s (⌈d / s⌉.toNat + 1) d

lemma segmentLengthsAux_zero (s : ℚ) (fuel : ℕ) : segmentLengthsAux s fuel 0 = [] := by
  cases fuel <;> simp [segmentLengthsAux]

lemma segmentLengthsAux_closed {s : ℚ} (hs : 0 < s) :
    ∀ fuel d, 0 ≤ d → ⌈d / s⌉.toNat ≤ fuel →
      segmentLengthsAux s fuel d =
        (List.range ⌈d / s⌉.toNat).map (fun i : ℕ => min s (d - (i : ℚ) * s)) := by
  intro fuel
  induction fuel with
  | zero =>
    intro d _ hle
    have h0 : ⌈d / s⌉.toNat = 0 := Nat.le_zero.mp hle
    simp [segmentLengthsAux, h0]
  | succ fuel ih =>
    intro d hd hle
    by_cases hpos : 0 < d
    · have hceil : 0 < ⌈d / s⌉ := Int.ceil_pos.mpr (div_pos hpos hs)
      by_cases hsd : s ≤ d
      · rw [segmentLengthsAux, if_pos hpos, if_pos hsd]
        have hkey : ⌈(d - s) / s⌉ = ⌈d / s⌉ - 1 := by
          rw [sub_div, div_self (ne_of_gt hs), Int.ceil_sub_one]
        have htn : ⌈(d - s) / s⌉.toNat = ⌈d / s⌉.toNat - 1 := by
          rw [hkey]; omega
        have hfuel : ⌈(d - s) / s⌉.toNat ≤ fuel := by omega
        rw [ih (d - s) (sub_nonneg.mpr hsd) hfuel, htn]
        have hc : ⌈d / s⌉.toNat = (⌈d / s⌉.toNat - 1) + 1 := by omega
        conv_rhs => rw [hc]
        rw [List.range_succ_eq_map, List.map_cons, List.map_map]
        congr 1
        · push_cast
          simp [min_eq_left hsd]
        · apply List.map_congr_left
          intro i _
          simp only [Function.comp_apply]
          congr 1
          push_cast
          ring
      · have hd_lt : d < s := not_le.mp hsd
        rw [segmentLengthsAux, if_pos hpos, if_neg hsd]
        have hone : ⌈d / s⌉ = 1 := by
          have hq1 : (0 : ℚ) < d / s := div_pos hpos hs
          have hq2 : d / s ≤ 1 := (div_le_one hs).mpr hd_lt.le
          rw [Int.ceil_eq_iff]
          constructor <;> push_cast <;> linarith
        rw [sub_self, segmentLengthsAux_zero, hone]
        rw [show List.range (Int.toNat 1) = [0] from rfl]
        simp [min_eq_right hd_lt.le]
    · have hd0 : d = 0 := le_antisymm (not_lt.mp hpos) hd
      subst hd0
      rw [segmentLengthsAux, if_neg hpos]
      simp

lemma segmentLengthsAux_sum {s : ℚ} (hs : 0 < s) :
    ∀ fuel d, 0 ≤ d → ⌈d / s⌉.toNat ≤ fuel → (segmentLengthsAux s fuel d).sum = d := by
  intro fuel
  induction fuel with
  | zero =>
    intro d hd hle
    have h0 : ⌈d / s⌉ ≤ 0 := by omega
    have hds : d / s ≤ 0 := by exact_mod_cast Int.ceil_le.mp (by simpa using h0)
    have : d ≤ 0 := by
      by_contra hlt
      exact absurd (div_pos (not_le.mp hlt) hs) (not_lt.mpr hds)
    have hd0 : d = 0 := le_antisymm this hd
    simp [segmentLengthsAux, hd0]
  | succ fuel ih =>
    intro d hd hle
    by_cases hpos : 0 < d
    · have hceil : 0 < ⌈d / s⌉ := Int.ceil_pos.mpr (div_pos hpos hs)
      by_cases hsd : s ≤ d
      · rw [segmentLengthsAux, if_pos hpos, if_pos hsd]
        have hkey : ⌈(d - s) / s⌉ = ⌈d / s⌉ - 1 := by
          rw [sub_div, div_self (ne_of_gt hs), Int.ceil_sub_one]
        have hfuel : ⌈(d - s) / s⌉.toNat ≤ fuel := by rw [hkey]; omega
        rw [List.sum_cons, ih (d - s) (sub_nonneg.mpr hsd) hfuel]
        ring
      · rw [segmentLengthsAux, if_pos hpos, if_neg hsd, sub_self, segmentLengthsAux_zero]
        simp
    · have hd0 : d = 0 := le_antisymm (not_lt.mp hpos) hd
      simp [segmentLengthsAux, hd0]

lemma segmentLengths_closed {d s : ℚ} (hd : 0 ≤ d) (hs : 0 < s) :
    segmentLengths d s
      = (List.range ⌈d / s⌉.toNat).map (fun i : ℕ => min s (d - (i : ℚ) * s)) :=
  segmentLengthsAux_closed hs _ d hd (Nat.le_succ _)

lemma segmentLengths_sum {d s : ℚ} (hd : 0 ≤ d) (hs : 0 < s) :
    (segmentLengths d s).sum = d :=
  segmentLengthsAux_sum hs _ d hd (Nat.le_succ _)

/-! ### Manifest text -/

/-- The fixed header lines of the synthesized manifest. -/
def manifestHeader : List (List Char) :=
  [str "#EXTM3U", str "#EXT-X-VERSION:3", str "#EXT-X-MEDIA-SEQUENCE:0",
    str "#EXT-X-TARGETDURATION: " ++ natToChars hlsSegmentDuration,
    str "#EXT-X-PLAYLIST-TYPE:VOD"]

/-- The two lines the loop body appends for each segment, the index counting
up from `i` (the loop starts at `index = 0`). -/
def manifestEntryLines (id : List Char) : ℕ → List ℚ → List (List Char)
  | _, [] => []
  | i, len :: rest =>
    (str "#EXTINF:" ++ toFixed4 len ++ str ", nodesc") ::
      (str "/segment.ts?file=" ++ id ++ natToChars i ++ str ".ts") ::
        manifestEntryLines id (i + 1) rest

/-- All lines of the synthesized manifest, in order. -/
def manifestLines (d : ℚ) (id : List Char) : List (List Char) :=
  manifestHeader ++ manifestEntryLines id 0 (segmentLengths d (hlsSegmentDuration : ℚ))

/-- CRLF, the line terminator the synthesizer appends to every line. -/
def crlf : List Char := ['\r', '\n']

/-- `Stream.generateM3U8(mediaDuration, filename)`: each accumulated line is
followed by CRLF and the result ends with `#EXT-X-ENDLIST` (no trailing
newline). -/
def generateM3U8 (mediaDuration : ℚ) (filename : List Char) : List Char :=
  ((manifestLines mediaDuration filename).map (fun l => l ++ crlf)).flatten ++
    str "#EXT-X-ENDLIST"

/-- A line counts as an `#EXTINF` entry when it starts with `#EXTINF`. -/
def isEXTINFLine (l : List Char) : Bool := decide (str "#EXTINF" <+: l)

lemma head_mismatch {a b : Char} (as bs : List Char) (h : a ≠ b) :
    ¬ ((a :: as) <+: (b :: bs)) := by
  rintro ⟨t, ht⟩
  rw [List.cons_append] at ht
  exact h (by injection ht)

lemma countP_manifestEntryLines (id : List Char) :
    ∀ lens i, (manifestEntryLines id i lens).countP isEXTINFLine = lens.length := by
  intro lens
  induction lens with
  | nil => intro i; rfl
  | cons len rest ih =>
    intro i
    have h1 : isEXTINFLine (str "#EXTINF:" ++ toFixed4 len ++ str ", nodesc") = true := by
      unfold isEXTINFLine
      refine decide_eq_true ⟨str ":" ++ toFixed4 len ++ str ", nodesc", ?_⟩
      rw [show str "#EXTINF:" = str "#EXTINF" ++ str ":" from by decide]
      simp [List.append_assoc]
    have h2 : ¬ isEXTINFLine (str "/segment.ts?file=" ++ id ++ natToChars i ++ str ".ts")
        = true := by
      unfold isEXTINFLine
      simp only [decide_eq_true_eq]
      rw [show str "/segment.ts?file=" = '/' :: str "segment.ts?file=" from by decide,
        show str "#EXTINF" = '#' :: str "EXTINF" from by decide]
      rw [List.cons_append]
      exact head_mismatch _ _ (by decide)
    rw [manifestEntryLines, List.countP_cons_of_pos _ _ h1,
      List.countP_cons_of_neg _ _ h2, ih]
    simp

lemma countP_manifestLines (d : ℚ) (id : List Char) :
    (manifestLines d id).countP isEXTINFLine
      = (segmentLengths d (hlsSegmentDuration : ℚ)).length := by
  rw [manifestLines, List.countP_append, countP_manifestEntryLines]
  have : manifestHeader.countP isEXTINFLine = 0 := by decide
  omega

lemma segmentLengths_length {d s : ℚ} (hd : 0 ≤ d) (hs : 0 < s) :
    (segmentLengths d s).length = ⌈d / s⌉.toNat := by
  rw [segmentLengths_closed hd hs]
  simp

lemma ceil_toNat_cast {d s : ℚ} (hd : 0 < d) (hs : 0 < s) :
    ((⌈d / s⌉.toNat : ℕ) : ℚ) = ((⌈d / s⌉ : ℤ) : ℚ) := by
  have h0 : 0 ≤ ⌈d / s⌉ := (Int.ceil_pos.mpr (div_pos hd hs)).le
  exact_mod_cast congrArg Int.cast (Int.toNat_of_nonneg h0)

lemma segmentLengths_getLast {d s : ℚ} (hd : 0 < d) (hs : 0 < s) :
    (segmentLengths d s).getLast?
      = some (d - ((⌈d / s⌉.toNat - 1 : ℕ) : ℚ) * s) := by
  have hc : 0 < ⌈d / s⌉.toNat := by
    have := Int.ceil_pos.mpr (div_pos hd hs)
    omega
  have hle : d ≤ (⌈d / s⌉.toNat : ℚ) * s := by
    rw [ceil_toNat_cast hd hs, ← div_le_iff₀ hs]
    exact Int.le_ceil _
  rw [segmentLengths_closed hd.le hs]
  obtain ⟨m, hm⟩ : ∃ m, ⌈d / s⌉.toNat = m + 1 := ⟨⌈d / s⌉.toNat - 1, by omega⟩
  rw [hm, List.range_succ, List.map_append, List.map_cons, List.map_nil,
    List.getLast?_concat]
  have hcast : ((m : ℚ) + 1) * s = (((m + 1 : ℕ) : ℚ)) * s := by push_cast; ring
  have hle' : d ≤ ((m : ℚ) + 1) * s := by
    rw [hcast, ← hm]
    exact hle
  have hmin : min s (d - (m : ℚ) * s) = d - (m : ℚ) * s := by
    apply min_eq_right
    nlinarith
  rw [hmin]
  norm_num

lemma segmentLengths_getLast_of_multiple {d s : ℚ} (hd : 0 < d) (hs : 0 < s)
    (hmul : ∃ k : ℕ, d = (k : ℚ) * s) :
    (segmentLengths d s).getLast? = some s := by
  obtain ⟨k, rfl⟩ := hmul
  have hk : 1 ≤ k := by
    rcases Nat.eq_zero_or_pos k with h | h
    · subst h; norm_num at hd
    · exact h
  have hck : ⌈((k : ℚ) * s) / s⌉ = (k : ℤ) := by
    rw [mul_div_assoc, div_self (ne_of_gt hs), mul_one, Int.ceil_natCast]
  rw [segmentLengths_getLast hd hs, hck]
  have htn : ((k : ℤ).toNat - 1 : ℕ) = k - 1 := by omega
  rw [htn]
  congr 1
  rw [Nat.cast_sub hk]
  push_cast
  ring

/-! ### Lines of the manifest are free of CR and LF -/

lemma toFixed4_mem {q : ℚ} {c : Char} (h : c ∈ toFixed4 q) :
    c.isDigit = true ∨ c = '.' := by
  simp only [toFixed4, pad4, List.mem_append, List.mem_cons, List.mem_replicate] at h
  rcases h with h | h | ⟨_, rfl⟩ | h
  · exact Or.inl (natToChars_all_digit _ _ h)
  · exact Or.inr h
  · exact Or.inl (by decide)
  · exact Or.inl (natToChars_all_digit _ _ h)

lemma no_crlf_append {xs ys : List Char}
    (hx : '\r' ∉ xs ∧ '\n' ∉ xs) (hy : '\r' ∉ ys ∧ '\n' ∉ ys) :
    '\r' ∉ xs ++ ys ∧ '\n' ∉ xs ++ ys := by
  constructor <;> simp only [List.mem_append] <;> rintro (h | h)
  exacts [hx.1 h, hy.1 h, hx.2 h, hy.2 h]

lemma no_crlf_natToChars (n : ℕ) : '\r' ∉ natToChars n ∧ '\n' ∉ natToChars n := by
  constructor <;> intro h
  · exact absurd (natToChars_all_digit n _ h) (by decide)
  · exact absurd (natToChars_all_digit n _ h) (by decide)

lemma no_crlf_toFixed4 (q : ℚ) : '\r' ∉ toFixed4 q ∧ '\n' ∉ toFixed4 q := by
  constructor <;> intro h
  · rcases toFixed4_mem h with h' | h'
    · exact absurd h' (by decide)
    · exact absurd h' (by decide)
  · rcases toFixed4_mem h with h' | h'
    · exact absurd h' (by decide)
    · exact absurd h' (by decide)

lemma manifestEntryLines_no_crlf {id : List Char} (hr : '\r' ∉ id) (hn : '\n' ∉ id) :
    ∀ lens i l, l ∈ manifestEntryLines id i lens → '\r' ∉ l ∧ '\n' ∉ l := by
  intro lens
  induction lens with
  | nil =>
    intro i l hl
    simp [manifestEntryLines] at hl
  | cons len rest ih =>
    intro i l hl
    rw [manifestEntryLines] at hl
    rcases List.mem_cons.mp hl with rfl | hl
    · exact no_crlf_append
        (no_crlf_append (by decide) (no_crlf_toFixed4 len)) (by decide)
    rcases List.mem_cons.mp hl with rfl | hl
    · exact no_crlf_append
        (no_crlf_append (no_crlf_append (by decide) ⟨hr, hn⟩)
          (no_crlf_natToChars i)) (by decide)
    · exact ih _ _ hl

lemma manifestLines_no_crlf {d : ℚ} {id : List Char} (hr : '\r' ∉ id) (hn : '\n' ∉ id) :
    ∀ l ∈ manifestLines d id, '\r' ∉ l ∧ '\n' ∉ l := by
  intro l hl
  rcases List.mem_append.mp hl with hl | hl
  · have hhead : ∀ l ∈ manifestHeader, '\r' ∉ l ∧ '\n' ∉ l := by decide
    exact hhead l hl
  · exact manifestEntryLines_no_crlf hr hn _ _ _ hl

/-! ### The concrete happy-path instance: duration 12.5, segment duration 5 -/

lemma segmentLengths_concrete : segmentLengths (25/2) 5 = [5, 5, 5/2] := by
  have h3 : (⌈(25/2 : ℚ) / 5⌉ : ℤ) = 3 := by
    rw [Int.ceil_eq_iff]
    norm_num
  rw [segmentLengths_closed (by norm_num) (by norm_num), h3]
  rw [show (3 : ℤ).toNat = 3 from rfl, show List.range 3 = [0, 1, 2] from rfl]
  norm_num [min_def]

lemma toFixed4_five : toFixed4 5 = str "5.0000" := by
  have hr : round ((5 : ℚ) * 10000) = 50000 := by norm_num [round_eq]
  rw [toFixed4, hr]
  decide

lemma toFixed4_half : toFixed4 (5/2) = str "2.5000" := by
  have hr : round ((5/2 : ℚ) * 10000) = 25000 := by norm_num [round_eq]
  rw [toFixed4, hr]
  decide

set_option maxRecDepth 8192

lemma generateM3U8_concrete :
    generateM3U8 (25/2) (str "abcd1234") =
      str "#EXTM3U\r\n#EXT-X-VERSION:3\r\n#EXT-X-MEDIA-SEQUENCE:0\r\n#EXT-X-TARGETDURATION: 5\r\n#EXT-X-PLAYLIST-TYPE:VOD\r\n#EXTINF:5.0000, nodesc\r\n/segment.ts?file=abcd12340.ts\r\n#EXTINF:5.0000, nodesc\r\n/segment.ts?file=abcd12341.ts\r\n#EXTINF:2.5000, nodesc\r\n/segment.ts?file=abcd12342.ts\r\n#EXT-X-ENDLIST" := by
  rw [generateM3U8, manifestLines,
    show ((hlsSegmentDuration : ℕ) : ℚ) = 5 from by norm_num [hlsSegmentDuration],
    segmentLengths_concrete]
  simp only [manifestEntryLines, toFixed4_five, toFixed4_half]
  decide

/-! ### Claim C1 -/

/-- C1: for every positive duration `d`, segment duration `s > 0` and CR/LF-free
identifier, the synthesized VOD manifest contains exactly `⌈d/s⌉` `#EXTINF`
entries whose durations sum to `d` exactly (hence to 4 decimal places); each
entry's duration is `min(remaining, s)` where the remaining duration before
entry `i` is `d − i·s`; the last entry's duration is `d − (⌈d/s⌉−1)·s`, which
equals `s` when `d` is an exact multiple of `s`; every line of the manifest is
emitted with a trailing CRLF (the lines themselves containing no CR or LF) and
the manifest terminates with `#EXT-X-ENDLIST`; and for `d = 12.5`, `s = 5`,
identifier `abcd1234`, the manifest is exactly the three-entry playlist with
durations 5.0000, 5.0000, 2.5000 and URIs `/segment.ts?file=abcd1234{0,1,2}.ts`. -/
theorem claimC1_generateM3U8 (d s : ℚ) (id : List Char) (hd : 0 < d) (hs : 0 < s)
    (hidr : '\r' ∉ id) (hidn : '\n' ∉ id) :
    (segmentLengths d s).length = ⌈d / s⌉.toNat
    ∧ (segmentLengths d s).sum = d
    ∧ segmentLengths d s
        = (List.range ⌈d / s⌉.toNat).map (fun i : ℕ => min s (d - (i : ℚ) * s))
    ∧ (segmentLengths d s).getLast? = some (d - ((⌈d / s⌉.toNat - 1 : ℕ) : ℚ) * s)
    ∧ ((∃ k : ℕ, d = (k : ℚ) * s) → (segmentLengths d s).getLast? = some s)
    ∧ generateM3U8 d id
        = ((manifestLines d id).map (fun l => l ++ crlf)).flatten
            ++ str "#EXT-X-ENDLIST"
    ∧ str "#EXT-X-ENDLIST" <:+ generateM3U8 d id
    ∧ (∀ l ∈ manifestLines d id, '\r' ∉ l ∧ '\n' ∉ l)
    ∧ (manifestLines d id).countP isEXTINFLine
        = (segmentLengths d ((hlsSegmentDuration : ℕ) : ℚ)).length
    ∧ segmentLengths (25/2) 5 = [5, 5, 5/2]
    ∧ generateM3U8 (25/2) (str "abcd1234") =
        str "#EXTM3U\r\n#EXT-X-VERSION:3\r\n#EXT-X-MEDIA-SEQUENCE:0\r\n#EXT-X-TARGETDURATION: 5\r\n#EXT-X-PLAYLIST-TYPE:VOD\r\n#EXTINF:5.0000, nodesc\r\n/segment.ts?file=abcd12340.ts\r\n#EXTINF:5.0000, nodesc\r\n/segment.ts?file=abcd12341.ts\r\n#EXTINF:2.5000, nodesc\r\n/segment.ts?file=abcd12342.ts\r\n#EXT-X-ENDLIST" :=
  ⟨segmentLengths_length hd.le hs, segmentLengths_sum hd.le hs,
    segmentLengths_closed hd.le hs, segmentLengths_getLast hd hs,
    segmentLengths_getLast_of_multiple hd hs, rfl, ⟨_, rfl⟩,
    manifestLines_no_crlf hidr hidn, countP_manifestLines d id,
    segmentLengths_concrete, generateM3U8_concrete⟩

/-- Witness for C1 at duration 12.5, segment duration 5, identifier abcd1234. -/
theorem claimC1_generateM3U8_witness :
    (0 : ℚ) < 25/2 ∧ (0 : ℚ) < 5 ∧ '\r' ∉ str "abcd1234" ∧ '\n' ∉ str "abcd1234"
    ∧ (segmentLengths (25/2) 5).sum = 25/2
    ∧ (segmentLengths (25/2) 5).length = ⌈(25/2 : ℚ) / 5⌉.toNat :=
  ⟨by norm_num, by norm_num, by decide, by decide,
    (claimC1_generateM3U8 (25/2) 5 (str "abcd1234") (by norm_num) (by norm_num)
      (by decide) (by decide)).2.1,
    (claimC1_generateM3U8 (25/2) 5 (str "abcd1234") (by norm_num) (by norm_num)
      (by decide) (by decide)).1⟩

/-! ### Segment filename parsing (`StreamSegmentPoller` constructor) -/

/-- JS `s.split('.')[0]`: the characters before the first dot. -/
def splitHeadDot (cs : List Char) : List Char := cs.takeWhile (fun c => c ≠ '.')

/-- The constructor's parse of a requested filename:
`identifier = filename.substring(0, 8)` and
`segmentIndex = parseInt(filename.substring(8).split('.')[0], 10)`. -/
def parseSegmentFilename (filename : List Char) : List Char × Option ℕ :=
  (filename.take 8, parseInt10 (splitHeadDot (filename.drop 8)))

/-- `maxTries = hlsSegmentDuration * 2 < 10 ? 10 : hlsSegmentDuration * 2`. -/
def maxTriesOf (segDur : ℕ) : ℕ := if segDur * 2 < 10 then 10 else segDur * 2

/-! ### Poller and stream state (`StreamSegmentPoller.poll`) -/

/-- The slice of a `Stream`'s mutable state the poller reads and writes.
`processAlive` is `this.process !== null`; `timerActive` is
`this.selfDestructTimer !== null`. -/
structure StreamSt where
  processAlive : Bool
  seekToSegment : ℕ
  timerActive : Bool
deriving DecidableEq

/-- The poller's own mutable state. -/
structure PollerSt where
  segmentIndex : ℕ
  currentTry : ℕ
  maxTries : ℕ
  transcodeStarting : Bool
  newTranscoderStarted : Bool
  stream : Option StreamSt
deriving DecidableEq

/-- What one invocation of `poll()` observes from outside: whether the
requested segment file exists, and the `currentTranscodingIndex` the gap
analysis would produce (after the M3U8 method, the FILE fallback and the
final default to 0). -/
structure PollEnv where
  fileExists : Bool
  gapIndex : ℕ
deriving DecidableEq

/-- How one `poll()` invocation ends. `crashedUndefined` is the unreachable
branch that dereferences the undefined `streamObject` while constructing a
replacement `Stream`. -/
inductive PollOutcome
  | maxTriesError
  | fileServed
  | crashedUndefined
  | spawned
  | retried
deriving DecidableEq

/-- Result of one `poll()` invocation: the outcome, whether the branch killed
a live transcoder, whether the invocation reached the file-existence check,
and the poller / stream state at the end of the synchronous call. -/
structure PollResult where
  outcome : PollOutcome
  killedOldProcess : Bool
  checkedFile : Bool
  poller : PollerSt
  stream : Option StreamSt
deriving DecidableEq

/-- `retry()`: `this.currentTry += 1` and re-schedule `poll`. -/
def retryStep (p : PollerSt) : PollerSt := {p with currentTry := p.currentTry + 1}

/-- The `shouldStartTranscode` decision chain of `poll()`, in source order.
The gap comparison is JS `segmentIndex - currentTranscodingIndex >= 3`,
integer subtraction. -/
def shouldStartTranscodeCalc (p : PollerSt) (env : PollEnv) : Bool :=
  match p.stream with
  | none => true
  | some st =>
    if p.transcodeStarting then false
    else if !st.processAlive then true
    else if p.newTranscoderStarted then false
    else decide ((p.segmentIndex : ℤ) - (env.gapIndex : ℤ) ≥ (hlsSegmentMaxGap : ℤ))

/-- One synchronous invocation of `StreamSegmentPoller.poll()`. In the
restart branch, `process.kill()` leaves the stale handle non-null, the
stream's ticker is cleared and then immediately restarted by the synchronous
prefix of `spawn()` (`startSelfDestructor`), and `seekToSegment` is assigned
the requested index only when a live transcoder was killed. -/
def pollStep (env : PollEnv) (p : PollerSt) : PollResult :=
  if p.currentTry > p.maxTries then ⟨.maxTriesError, false, false, p, p.stream⟩
  else if env.fileExists then ⟨.fileServed, false, true, p, p.stream⟩
  else if shouldStartTranscodeCalc p env && !p.newTranscoderStarted then
    let p' := {p with transcodeStarting := true, newTranscoderStarted := true}
    match p.stream with
    | none => ⟨.crashedUndefined, false, true, p', none⟩
    | some st =>
      if st.processAlive then
        ⟨.spawned, true, true, p',
          some {st with seekToSegment := p.segmentIndex, timerActive := true}⟩
      else
        ⟨.spawned, false, true, p', some {st with timerActive := true}⟩
  else ⟨.retried, false, true, retryStep p, p.stream⟩

/-- The success callback passed to `spawn()` by the restart branch:
`this.transcodeStarting = false; this.retry()`. -/
def onSpawnSuccess (p : PollerSt) : PollerSt :=
  retryStep {p with transcodeStarting := false}

/-- Events that can touch a poller's state after a given point: another
`poll()` invocation (under an arbitrary environment) or the spawn success
callback. -/
inductive PollerAct
  | onPoll (env : PollEnv)
  | onSpawnOk

/-- Apply one event; the flag records whether this event called `spawn()`. -/
def pollerActStep : PollerAct → PollerSt → PollerSt × Bool
  | .onPoll env, p =>
    ((pollStep env p).poller, decide ((pollStep env p).outcome = .spawned))
  | .onSpawnOk, p => (onSpawnSuccess p, false)

/-- Total number of `spawn()` calls made over a sequence of events started
from poller state `p`. -/
def countSpawns : List PollerAct → PollerSt → ℕ
  | [], _ => 0
  | a :: rest, p => (if (pollerActStep a p).2 then 1 else 0)
      + countSpawns rest (pollerActStep a p).1

lemma pollStep_newStarted_mono {env : PollEnv} {p : PollerSt}
    (h : p.newTranscoderStarted = true) :
    (pollStep env p).poller.newTranscoderStarted = true := by
  rw [pollStep]
  split
  · exact h
  split
  · exact h
  split
  · rcases hs : p.stream with _ | st
    · simp [hs]
    · simp only [hs]
      split <;> simp [h]
  · simp [retryStep, h]

lemma pollStep_no_spawn_of_newStarted {env : PollEnv} {p : PollerSt}
    (h : p.newTranscoderStarted = true) :
    (pollStep env p).outcome ≠ PollOutcome.spawned := by
  rw [pollStep]
  split
  · simp
  split
  · simp
  split
  · rename_i hcond
    rw [h] at hcond
    simp at hcond
  · simp

/-- Once `newTranscoderStarted` is latched, no later event of the poller's
lifetime can call `spawn()` again. -/
lemma countSpawns_eq_zero {p : PollerSt} (h : p.newTranscoderStarted = true) :
    ∀ acts, countSpawns acts p = 0 := by
  intro acts
  induction acts generalizing p with
  | nil => rfl
  | cons a rest ih =>
    cases a with
    | onPoll env =>
      rw [countSpawns]
      have h1 := @pollStep_no_spawn_of_newStarted env p h
      have h2 := @pollStep_newStarted_mono env p h
      simp only [pollerActStep]
      rw [ih h2]
      simp [h1]
    | onSpawnOk =>
      rw [countSpawns]
      simp only [pollerActStep]
      have h2 : (onSpawnSuccess p).newTranscoderStarted = true := h
      rw [ih h2]
      simp

/-! ### Claim C2 -/

/-- C2: a segment request bound to a Stream with a live transcoder, with
neither latch set and the try budget not exhausted, whose requested index `i`
and gap-analysis result `j` satisfy `i − j ≥ hlsSegmentMaxGap`, makes `poll()`
kill the live transcoder, set the Stream's `seekToSegment` to `i` (restarting
the ticker via the synchronous prefix of `spawn()`), call `spawn()` in this
invocation, latch `newTranscoderStarted`, and never call `spawn()` again for
the rest of this poller's lifetime. -/
theorem claimC2_gap_restart (p : PollerSt) (st : StreamSt) (env : PollEnv)
    (hstream : p.stream = some st) (halive : st.processAlive = true)
    (hts : p.transcodeStarting = false) (hnt : p.newTranscoderStarted = false)
    (htries : p.currentTry ≤ p.maxTries) (hfile : env.fileExists = false)
    (hgap : (p.segmentIndex : ℤ) - (env.gapIndex : ℤ) ≥ (hlsSegmentMaxGap : ℤ)) :
    (pollStep env p).outcome = PollOutcome.spawned
    ∧ (pollStep env p).killedOldProcess = true
    ∧ (pollStep env p).stream
        = some {st with seekToSegment := p.segmentIndex, timerActive := true}
    ∧ (pollStep env p).poller.newTranscoderStarted = true
    ∧ ∀ acts, countSpawns acts (pollStep env p).poller = 0 := by
  have h1 : ¬ p.currentTry > p.maxTries := not_lt.mpr htries
  have h2 : (shouldStartTranscodeCalc p env && !p.newTranscoderStarted) = true := by
    simp [shouldStartTranscodeCalc, hstream, hts, halive, hnt, hgap]
  have hres : pollStep env p = ⟨.spawned, true, true,
      {p with transcodeStarting := true, newTranscoderStarted := true},
      some {st with seekToSegment := p.segmentIndex, timerActive := true}⟩ := by
    rw [pollStep, if_neg h1, if_neg (by simp [hfile]), if_pos h2, hstream]
    simp [halive]
  refine ⟨by rw [hres], by rw [hres], by rw [hres], by rw [hres], ?_⟩
  rw [hres]
  exact countSpawns_eq_zero rfl

/-- Witness for C2: requested index 10 with gap result 2 on a live stream. -/
theorem claimC2_gap_restart_witness :
    (pollStep ⟨false, 2⟩ ⟨10, 0, 10, false, false, some ⟨true, 0, true⟩⟩).outcome
      = PollOutcome.spawned
    ∧ (pollStep ⟨false, 2⟩ ⟨10, 0, 10, false, false, some ⟨true, 0, true⟩⟩).stream
      = some ⟨true, 10, true⟩
    ∧ countSpawns [PollerAct.onSpawnOk, PollerAct.onPoll ⟨false, 2⟩]
        (pollStep ⟨false, 2⟩ ⟨10, 0, 10, false, false, some ⟨true, 0, true⟩⟩).poller
      = 0 := by
  have h := claimC2_gap_restart ⟨10, 0, 10, false, false, some ⟨true, 0, true⟩⟩
    ⟨true, 0, true⟩ ⟨false, 2⟩ rfl rfl rfl rfl (by norm_num) rfl (by decide)
  exact ⟨h.1, by rw [h.2.2.1], h.2.2.2.2 _⟩

/-! ### Claim C5 -/

/-- C5 as stated is false on the code: with the transcoder handle already
cleared by a crash (`process === null`) after producing segments 0–4, a
request for segment 5 does respawn, but the respawn does NOT run with
`seekToSegment = 5`: the assignment `seekToSegment = segmentIndex` sits
inside the branch that requires a live process, so the stale value 0 is
kept. -/
theorem claimC5_counterexample :
    (pollStep ⟨false, 4⟩ ⟨5, 0, 10, false, false, some ⟨false, 0, true⟩⟩).outcome
      = PollOutcome.spawned
    ∧ Option.map StreamSt.seekToSegment
        ((pollStep ⟨false, 4⟩ ⟨5, 0, 10, false, false, some ⟨false, 0, true⟩⟩).stream)
      = some 0
    ∧ ¬ (Option.map StreamSt.seekToSegment
        ((pollStep ⟨false, 4⟩ ⟨5, 0, 10, false, false, some ⟨false, 0, true⟩⟩).stream)
      = some 5) := by decide

/-- C5 amended: after a crash cleared the handle, the next poll respawns
exactly once (the latch prevents any further `spawn()` from this poller),
kills nothing, and keeps the Stream's previous `seekToSegment` unchanged. -/
theorem claimC5_crash_respawn (p : PollerSt) (st : StreamSt) (env : PollEnv)
    (hstream : p.stream = some st) (hdead : st.processAlive = false)
    (hts : p.transcodeStarting = false) (hnt : p.newTranscoderStarted = false)
    (htries : p.currentTry ≤ p.maxTries) (hfile : env.fileExists = false) :
    (pollStep env p).outcome = PollOutcome.spawned
    ∧ (pollStep env p).killedOldProcess = false
    ∧ (pollStep env p).stream = some {st with timerActive := true}
    ∧ Option.map StreamSt.seekToSegment ((pollStep env p).stream)
        = some st.seekToSegment
    ∧ (pollStep env p).poller.newTranscoderStarted = true
    ∧ ∀ acts, countSpawns acts (pollStep env p).poller = 0 := by
  have h1 : ¬ p.currentTry > p.maxTries := not_lt.mpr htries
  have h2 : (shouldStartTranscodeCalc p env && !p.newTranscoderStarted) = true := by
    simp [shouldStartTranscodeCalc, hstream, hts, hdead, hnt]
  have hres : pollStep env p = ⟨.spawned, false, true,
      {p with transcodeStarting := true, newTranscoderStarted := true},
      some {st with timerActive := true}⟩ := by
    rw [pollStep, if_neg h1, if_neg (by simp [hfile]), if_pos h2, hstream]
    simp [hdead]
  refine ⟨by rw [hres], by rw [hres], by rw [hres], by simp [hres], by rw [hres], ?_⟩
  rw [hres]
  exact countSpawns_eq_zero rfl

/-- Witness for the amended C5: segment 5 requested, crashed stream with
stale seek 0. -/
theorem claimC5_crash_respawn_witness :
    (pollStep ⟨false, 7⟩ ⟨5, 1, 10, false, false, some ⟨false, 0, true⟩⟩).outcome
      = PollOutcome.spawned
    ∧ Option.map StreamSt.seekToSegment
        ((pollStep ⟨false, 7⟩ ⟨5, 1, 10, false, false, some ⟨false, 0, true⟩⟩).stream)
      = some 0
    ∧ countSpawns [PollerAct.onSpawnOk, PollerAct.onPoll ⟨false, 7⟩]
        (pollStep ⟨false, 7⟩ ⟨5, 1, 10, false, false, some ⟨false, 0, true⟩⟩).poller
      = 0 := by
  have h := claimC5_crash_respawn ⟨5, 1, 10, false, false, some ⟨false, 0, true⟩⟩
    ⟨false, 0, true⟩ ⟨false, 7⟩ rfl rfl rfl rfl (by norm_num) rfl
  exact ⟨h.1, by rw [h.2.2.2.1], h.2.2.2.2.2 _⟩

/-! ### Claim C7 -/

/-- C7 as stated is false on the code: `maxTries` is indeed
`max(10, 2 × segment duration) = 10`, but with `currentTry = 10 = maxTries`
(i.e. after ten attempts have already happened at tries 0–9) the poll still
performs an eleventh file check and retries instead of erroring, so the
poller performs `maxTries + 1 = 11` attempts, not exactly 10, before
`on_error`. -/
theorem claimC7_counterexample :
    maxTriesOf hlsSegmentDuration = 10
    ∧ (pollStep ⟨false, 0⟩ ⟨2, 10, 10, false, false, some ⟨true, 0, true⟩⟩).outcome
        = PollOutcome.retried
    ∧ (pollStep ⟨false, 0⟩ ⟨2, 10, 10, false, false, some ⟨true, 0, true⟩⟩).checkedFile
        = true := by decide

/-- C7 amended: `maxTries = max(10, 2 × segment duration)`; while the file
never appears and the gap stays small, every poll with
`currentTry ≤ maxTries` checks the file and retries with `currentTry + 1`
(so attempts happen at tries 0 through `maxTries`: `maxTries + 1` of them,
11 with the defaults), and the first poll with `currentTry > maxTries`
invokes `on_error` without checking the file. -/
theorem claimC7_poller_attempts (p : PollerSt) (st : StreamSt) (env : PollEnv)
    (segDur : ℕ)
    (hstream : p.stream = some st) (halive : st.processAlive = true)
    (hts : p.transcodeStarting = false) (hnt : p.newTranscoderStarted = false)
    (hfile : env.fileExists = false)
    (hgap : (p.segmentIndex : ℤ) - (env.gapIndex : ℤ) < (hlsSegmentMaxGap : ℤ)) :
    maxTriesOf segDur = max 10 (2 * segDur)
    ∧ (p.currentTry ≤ p.maxTries →
        pollStep env p = ⟨.retried, false, true, retryStep p, p.stream⟩)
    ∧ (p.maxTries < p.currentTry →
        pollStep env p = ⟨.maxTriesError, false, false, p, p.stream⟩)
    ∧ pollRetryDelayMs = 1000 := by
  refine ⟨?_, ?_, ?_, rfl⟩
  · rw [maxTriesOf]
    split <;> omega
  · intro htries
    have h1 : ¬ p.currentTry > p.maxTries := not_lt.mpr htries
    have h2 : (shouldStartTranscodeCalc p env && !p.newTranscoderStarted) = false := by
      simp [shouldStartTranscodeCalc, hstream, hts, halive, hnt, not_le.mpr hgap]
    rw [pollStep, if_neg h1, if_neg (by simp [hfile]), if_neg (by simp [h2])]
  · intro htries
    rw [pollStep, if_pos htries]

/-- Witness for the amended C7: requested index 2, gap result 0, default
segment duration. -/
theorem claimC7_poller_attempts_witness :
    maxTriesOf 5 = max 10 (2 * 5)
    ∧ pollStep ⟨false, 0⟩ ⟨2, 0, 10, false, false, some ⟨true, 0, true⟩⟩
        = ⟨.retried, false, true,
            retryStep ⟨2, 0, 10, false, false, some ⟨true, 0, true⟩⟩,
            some ⟨true, 0, true⟩⟩ := by
  have h := claimC7_poller_attempts ⟨2, 0, 10, false, false, some ⟨true, 0, true⟩⟩
    ⟨true, 0, true⟩ ⟨false, 0⟩ 5 rfl rfl rfl rfl rfl (by decide)
  exact ⟨h.1, h.2.1 (by norm_num)⟩

/-! ### Claim C9 -/

lemma splitHeadDot_digits_append (i : ℕ) (rest : List Char) :
    splitHeadDot (natToChars i ++ '.' :: rest) = natToChars i := by
  apply takeWhile_append_of_all
  · intro c hc
    have hd := natToChars_all_digit i c hc
    simp only [ne_eq, decide_eq_true_eq]
    rintro rfl
    exact absurd hd (by decide)
  · simp

/-- C9 as stated is false on the code: for an identifier of nine
filename-safe characters the parse recovers only the first eight characters
and fails to parse the index (`parseInt` sees the non-digit ninth character
and yields `NaN`). -/
theorem claimC9_counterexample :
    parseSegmentFilename (str "abcdefghi" ++ natToChars 0 ++ str ".ts")
        = (str "abcdefgh", none)
    ∧ parseSegmentFilename (str "abcdefghi" ++ natToChars 0 ++ str ".ts")
        ≠ (str "abcdefghi", some 0) := by decide

/-- C9 amended: for every identifier of exactly 8 characters and every
segment index `i` advertised by the synthesized manifest, parsing the
filename `<identifier><i>.ts` embedded in the manifest URI recovers the
original pair: the first 8 characters are the identifier and `parseInt` of
the remainder before `.ts` is `i`. -/
theorem claimC9_roundtrip (id : List Char) (i : ℕ) (d : ℚ)
    (hlen : id.length = 8) (_hd : 0 < d)
    (_hi : i < (segmentLengths d ((hlsSegmentDuration : ℕ) : ℚ)).length) :
    parseSegmentFilename (id ++ natToChars i ++ str ".ts") = (id, some i) := by
  rw [parseSegmentFilename]
  rw [List.append_assoc]
  congr 1
  · rw [← hlen, List.take_left]
  · rw [List.drop_left' hlen,
      show str ".ts" = '.' :: str "ts" from by decide,
      splitHeadDot_digits_append, parseInt10_natToChars]

/-- Witness for the amended C9: identifier `abcd1234`, index 2, duration 12.5. -/
theorem claimC9_roundtrip_witness :
    (str "abcd1234").length = 8 ∧ (0 : ℚ) < 25/2
    ∧ 2 < (segmentLengths (25/2) ((hlsSegmentDuration : ℕ) : ℚ)).length
    ∧ parseSegmentFilename (str "abcd1234" ++ natToChars 2 ++ str ".ts")
        = (str "abcd1234", some 2) := by
  have hcast : ((hlsSegmentDuration : ℕ) : ℚ) = 5 := by norm_num [hlsSegmentDuration]
  have hi : 2 < (segmentLengths (25/2) ((hlsSegmentDuration : ℕ) : ℚ)).length := by
    rw [hcast, segmentLengths_concrete]
    norm_num
  exact ⟨by decide, by norm_num, hi,
    claimC9_roundtrip (str "abcd1234") 2 (25/2) (by decide) (by norm_num) hi⟩

/-! ### Claim C10 -/

/-- A thrown JS exception; the only one this model needs. -/
inductive JsError
  | typeError
deriving DecidableEq

/-- The first statements of the `StreamSegmentPoller` constructor applied to
the raw `query.file` value: when the parameter is missing (`undefined`),
`this.filename.substring(0, 8)` throws a `TypeError`; otherwise the filename
is parsed into identifier and segment index. -/
def streamSegmentPollerInit (fileParam : Option (List Char)) :
    Except JsError (List Char × Option ℕ) :=
  match fileParam with
  | none => Except.error JsError.typeError
  | some f => Except.ok (parseSegmentFilename f)

/-- Outcome of the `/segment.ts` branch of the request handler. -/
inductive SegmentHandlerResult
  | threw (e : JsError)
  | pollerStarted (identifier : List Char) (index : Option ℕ)
deriving DecidableEq

/-- The `/segment.ts` branch: construct a poller for `query.file`. A throw
escapes the handler before either callback is registered, so neither the
success body nor the 500 error response is ever written for that request. -/
def segmentTsHandler (fileParam : Option (List Char)) : SegmentHandlerResult :=
  match streamSegmentPollerInit fileParam with
  | Except.error e => SegmentHandlerResult.threw e
  | Except.ok (ident, idx) => SegmentHandlerResult.pollerStarted ident idx

/-- C10: a `/segment.ts` request without a `file` query parameter makes the
handler throw an uncaught `TypeError` inside the poller constructor
(`substring` on `undefined`), so no response — success or 500 — is written. -/
theorem claimC10_missing_file_param :
    segmentTsHandler none = SegmentHandlerResult.threw JsError.typeError := rfl

/-! ### Transcoder Driver (`Stream.spawn`) and claim C3 -/

/-- Events the process handle can emit after `run()`. -/
inductive ProcEvent
  | perror
  | pstart
  | pend
deriving DecidableEq

/-- Fold of `spawn`'s event handlers over the emitted events, threading the
`initialCallbackSent` latch; `pend` calls `kill()` and touches neither
callback. Returns the arguments passed to `successCallback` (in order) and
the number of `errorCallback` invocations. -/
def spawnEventsGo (manifest : List Char) :
    List ProcEvent → Bool → List (List Char) × ℕ
  | [], _ => ([], 0)
  | ProcEvent.perror :: rest, latch =>
    if latch then spawnEventsGo manifest rest latch
    else ((spawnEventsGo manifest rest true).1,
          (spawnEventsGo manifest rest true).2 + 1)
  | ProcEvent.pstart :: rest, latch =>
    if latch then spawnEventsGo manifest rest latch
    else (manifest :: (spawnEventsGo manifest rest true).1,
          (spawnEventsGo manifest rest true).2)
  | ProcEvent.pend :: rest, latch => spawnEventsGo manifest rest latch

/-- Observable outcome of one `spawn()` invocation. -/
structure SpawnObs where
  successArgs : List (List Char)
  errorCalls : ℕ
  ranTranscoder : Bool
deriving DecidableEq

/-- `Stream.spawn(successCallback, errorCallback)`: on probe failure the
error callback fires once (latching `initialCallbackSent`) and the
transcoder is never run; on probe success the synthesized manifest is built
and the transcoder is run, its events handled through the latch. -/
def runSpawn (probeOk : Bool) (d : ℚ) (id : List Char)
    (events : List ProcEvent) : SpawnObs :=
  if probeOk then
    ⟨(spawnEventsGo (generateM3U8 d id) events false).1,
     (spawnEventsGo (generateM3U8 d id) events false).2, true⟩
  else ⟨[], 1, false⟩

lemma spawnEventsGo_latched (m : List Char) :
    ∀ events, spawnEventsGo m events true = ([], 0) := by
  intro events
  induction events with
  | nil => rfl
  | cons e rest ih => cases e <;> simp [spawnEventsGo, ih]

lemma spawnEventsGo_atMostOne (m : List Char) :
    ∀ events latch,
      (spawnEventsGo m events latch).1.length + (spawnEventsGo m events latch).2 ≤ 1 := by
  intro events
  induction events with
  | nil => intro latch; simp [spawnEventsGo]
  | cons e rest ih =>
    intro latch
    cases e with
    | perror =>
      rw [spawnEventsGo]
      by_cases hl : latch = true
      · rw [if_pos hl]; exact ih latch
      · rw [if_neg hl, spawnEventsGo_latched]; simp
    | pstart =>
      rw [spawnEventsGo]
      by_cases hl : latch = true
      · rw [if_pos hl]; exact ih latch
      · rw [if_neg hl, spawnEventsGo_latched]; simp
    | pend => rw [spawnEventsGo]; exact ih latch

lemma spawnEventsGo_error_before_start (m : List Char) :
    ∀ pre rest, ProcEvent.pstart ∉ pre →
      spawnEventsGo m (pre ++ ProcEvent.perror :: rest) false = ([], 1) := by
  intro pre
  induction pre with
  | nil =>
    intro rest _
    simp [spawnEventsGo, spawnEventsGo_latched]
  | cons e pre ih =>
    intro rest hns
    have hns' : ProcEvent.pstart ∉ pre := fun h => hns (by simp [h])
    cases e with
    | pstart => exact absurd (by simp) hns
    | perror =>
      simp [spawnEventsGo, spawnEventsGo_latched]
    | pend =>
      rw [List.cons_append, spawnEventsGo]
      exact ih rest hns'

lemma spawnEventsGo_start_first (m : List Char) :
    ∀ pre rest, ProcEvent.pstart ∉ pre → ProcEvent.perror ∉ pre →
      spawnEventsGo m (pre ++ ProcEvent.pstart :: rest) false = ([m], 0) := by
  intro pre
  induction pre with
  | nil =>
    intro rest _ _
    simp [spawnEventsGo, spawnEventsGo_latched]
  | cons e pre ih =>
    intro rest hns hne
    have hns' : ProcEvent.pstart ∉ pre := fun h => hns (by simp [h])
    have hne' : ProcEvent.perror ∉ pre := fun h => hne (by simp [h])
    cases e with
    | pstart => exact absurd (by simp) hns
    | perror => exact absurd (by simp) hne
    | pend =>
      rw [List.cons_append, spawnEventsGo]
      exact ih rest hns' hne'

/-- C3: in every interleaving of probe result and process events, at most one
of `on_success` / `on_error` fires, at most once; a failed probe fires
`on_error` once and never runs the transcoder; a process error before any
start fires `on_error` once and `on_success` never; a start before any error
delivers the synthesized manifest to `on_success` exactly once. -/
theorem claimC3_spawn_exactly_one_callback (probeOk : Bool) (d : ℚ)
    (id : List Char) (events : List ProcEvent) :
    (runSpawn probeOk d id events).successArgs.length
        + (runSpawn probeOk d id events).errorCalls ≤ 1
    ∧ (probeOk = false → runSpawn probeOk d id events = ⟨[], 1, false⟩)
    ∧ (probeOk = true → ∀ pre rest,
        events = pre ++ ProcEvent.perror :: rest → ProcEvent.pstart ∉ pre →
        (runSpawn probeOk d id events).successArgs = []
        ∧ (runSpawn probeOk d id events).errorCalls = 1)
    ∧ (probeOk = true → ∀ pre rest,
        events = pre ++ ProcEvent.pstart :: rest →
        ProcEvent.pstart ∉ pre → ProcEvent.perror ∉ pre →
        (runSpawn probeOk d id events).successArgs = [generateM3U8 d id]
        ∧ (runSpawn probeOk d id events).errorCalls = 0) := by
  refine ⟨?_, ?_, ?_, ?_⟩
  · cases probeOk
    · simp [runSpawn]
    · simpa [runSpawn] using spawnEventsGo_atMostOne (generateM3U8 d id) events false
  · rintro rfl
    rfl
  · rintro rfl pre rest rfl hns
    rw [runSpawn]
    simp [spawnEventsGo_error_before_start _ pre rest hns]
  · rintro rfl pre rest rfl hns hne
    rw [runSpawn]
    simp [spawnEventsGo_start_first _ pre rest hns hne]

/-- Witness for C3: a start followed by a late error delivers the manifest
once and no error; a failed probe yields one error call. -/
theorem claimC3_spawn_exactly_one_callback_witness :
    (runSpawn true 5 (str "abcd1234") [ProcEvent.pstart, ProcEvent.perror]).successArgs
      = [generateM3U8 5 (str "abcd1234")]
    ∧ (runSpawn true 5 (str "abcd1234") [ProcEvent.pstart, ProcEvent.perror]).errorCalls
      = 0
    ∧ (runSpawn false 5 (str "abcd1234") []).errorCalls = 1 := by
  have h := claimC3_spawn_exactly_one_callback true 5 (str "abcd1234")
    [ProcEvent.pstart, ProcEvent.perror]
  have h4 := h.2.2.2 rfl [] [ProcEvent.perror] rfl (by simp) (by simp)
  have h2 := (claimC3_spawn_exactly_one_callback false 5 (str "abcd1234") []).2.1 rfl
  exact ⟨h4.1, h4.2, by rw [h2]⟩

/-! ### Stream Supervisor (`kill`, `startSelfDestructor`, `checkDestruct`) -/

/-- The Stream fields `kill` and the ticker touch, plus a count of
`finishCallback` invocations. -/
structure StreamLife where
  timerActive : Bool
  processAlive : Bool
  finishCalls : ℕ
deriving DecidableEq

/-- The world outside the Stream: files on disk under the transcode
directory and the identifiers in the global `streams` registry. -/
structure SupWorld where
  files : List (List Char)
  registry : List (List Char)
deriving DecidableEq

/-- `removeFiles()`: delete every file matching `<identifier>*`. -/
def removeFilesOp (id : List Char) (w : SupWorld) : SupWorld :=
  {w with files := w.files.filter (fun f => !(decide (id <+: f)))}

/-- The `finishCallback` installed by the gateway:
`delete streams[streamIdentifier]`. -/
def finishOp (id : List Char) (w : SupWorld) : SupWorld :=
  {w with registry := w.registry.filter (fun x => !(decide (x = id)))}

/-- `Stream.kill(remove)`: cancel the ticker, kill and clear the transcoder
handle, optionally remove the files, then invoke `finishCallback` —
unconditionally, on every call. -/
def killOp (id : List Char) (remove : Bool) :
    StreamLife × SupWorld → StreamLife × SupWorld :=
  fun x =>
    (⟨false, false, x.1.finishCalls + 1⟩,
      finishOp id (if remove then removeFilesOp id x.2 else x.2))

/-- `startSelfDestructor()`: install the ticker if it is absent. It runs at
the top of `spawn()`, before the probe. -/
def startSelfDestructor (s : StreamLife) : StreamLife :=
  if s.timerActive then s else {s with timerActive := true}

/-- The probe callback on success: `this.process = ffmpeg(...)`. -/
def probeSuccessStep (s : StreamLife) : StreamLife := {s with processAlive := true}

/-- The error handler after a successful start: `this.process = null`; the
ticker is left untouched. -/
def errorAfterStartStep (s : StreamLife) : StreamLife := {s with processAlive := false}

/-- A freshly constructed `Stream`: no process handle, no ticker. -/
def streamInitLife : StreamLife := ⟨false, false, 0⟩

/-- `checkDestruct()`'s firing condition:
`(new Date() - this.lastActivity) / 1000 > selfDestructDuration`, the
elapsed time given in milliseconds. -/
def checkDestructFires (deltaMs : ℕ) : Bool :=
  decide ((deltaMs : ℚ) / 1000 > (selfDestructDuration : ℚ))

/-- One tick of the self-destruct ticker: `kill(true)` when the condition
holds, otherwise nothing. -/
def checkDestructStep (id : List Char) (deltaMs : ℕ)
    (x : StreamLife × SupWorld) : StreamLife × SupWorld :=
  if checkDestructFires deltaMs then killOp id true x else x

/-! ### Claim C4 -/

/-- C4 as stated is false on the code: `kill()` invokes `finishCallback()`
unconditionally on every call, so two kills invoke `on_finish` twice, not
exactly once per Stream instance. -/
theorem claimC4_counterexample :
    (killOp (str "abcd1234") true (killOp (str "abcd1234") true
        (⟨true, true, 0⟩, ⟨[str "abcd12340.ts"], [str "abcd1234"]⟩))).1.finishCalls = 2
    ∧ (killOp (str "abcd1234") true (killOp (str "abcd1234") true
        (⟨true, true, 0⟩, ⟨[str "abcd12340.ts"], [str "abcd1234"]⟩))).1.finishCalls
      ≠ 1 := by decide

/-- C4 amended: repeated `kill` calls with the same argument are idempotent
on the ticker, the transcoder handle, the files and the registry, but
`on_finish` is invoked once per call — each extra kill adds one invocation
instead of leaving the count at one. -/
theorem claimC4_kill_idempotent_state (id : List Char) (remove : Bool)
    (s : StreamLife) (w : SupWorld) :
    (killOp id remove (killOp id remove (s, w))).1.timerActive
        = (killOp id remove (s, w)).1.timerActive
    ∧ (killOp id remove (killOp id remove (s, w))).1.processAlive
        = (killOp id remove (s, w)).1.processAlive
    ∧ (killOp id remove (killOp id remove (s, w))).2.files
        = (killOp id remove (s, w)).2.files
    ∧ (killOp id remove (killOp id remove (s, w))).2.registry
        = (killOp id remove (s, w)).2.registry
    ∧ (killOp id remove (killOp id remove (s, w))).1.finishCalls
        = (killOp id remove (s, w)).1.finishCalls + 1 := by
  refine ⟨rfl, rfl, ?_, ?_, rfl⟩
  · cases remove <;>
      simp [killOp, finishOp, removeFilesOp, List.filter_filter]
  · cases remove <;>
      simp [killOp, finishOp, removeFilesOp, List.filter_filter]

/-! ### Claim C6 -/

/-- C6 as stated is false on the code: during probing — right after `spawn()`
runs `startSelfDestructor()` and before any process exists — the ticker is
active while the transcoder handle is absent, so the claimed biconditional
fails at that lifecycle point. -/
theorem claimC6_counterexample :
    ¬ ((startSelfDestructor streamInitLife).processAlive = true
        ↔ (startSelfDestructor streamInitLife).timerActive = true) := by decide

/-- C6 amended: the ticker is started by `spawn()` before any transcoder
exists, so during probing the ticker is active with no handle; after a
successful probe both handle and ticker are present; an error after start
clears the handle but leaves the ticker running; only `kill` makes both
absent. The handle-present → ticker-active direction holds at these
lifecycle points, but the absent direction fails during probing and after an
error-after-start. -/
theorem claimC6_ticker_vs_handle (s : StreamLife) (id : List Char)
    (r : Bool) (w : SupWorld) :
    (startSelfDestructor streamInitLife).timerActive = true
    ∧ (startSelfDestructor streamInitLife).processAlive = false
    ∧ (probeSuccessStep (startSelfDestructor streamInitLife)).processAlive = true
    ∧ (probeSuccessStep (startSelfDestructor streamInitLife)).timerActive = true
    ∧ (errorAfterStartStep s).processAlive = false
    ∧ (errorAfterStartStep s).timerActive = s.timerActive
    ∧ (killOp id r (s, w)).1.timerActive = false
    ∧ (killOp id r (s, w)).1.processAlive = false :=
  ⟨rfl, rfl, rfl, rfl, rfl, rfl, rfl, rfl⟩

/-! ### Claim C8 -/

/-- C8: the self-destruct ticker runs on a 5000 ms interval; a tick invokes
`kill(true)` exactly when the elapsed milliseconds since `lastActivity`
exceed `selfDestructDuration` seconds; after such a teardown the registry no
longer contains the identifier and no file with the identifier prefix
remains; a tick below the threshold changes nothing. -/
theorem claimC8_self_destruct (id : List Char) (deltaMs : ℕ)
    (s : StreamLife) (w : SupWorld) :
    selfDestructCheckIntervalMs = 5000
    ∧ (checkDestructFires deltaMs = true ↔ selfDestructDuration * 1000 < deltaMs)
    ∧ (selfDestructDuration * 1000 < deltaMs →
        id ∉ (checkDestructStep id deltaMs (s, w)).2.registry
        ∧ ∀ f ∈ (checkDestructStep id deltaMs (s, w)).2.files, ¬ id <+: f)
    ∧ (¬ selfDestructDuration * 1000 < deltaMs →
        checkDestructStep id deltaMs (s, w) = (s, w)) := by
  have hiff : checkDestructFires deltaMs = true ↔ selfDestructDuration * 1000 < deltaMs := by
    rw [checkDestructFires, decide_eq_true_eq, gt_iff_lt,
      lt_div_iff₀ (by norm_num : (0 : ℚ) < 1000)]
    rw [show ((selfDestructDuration : ℕ) : ℚ) * 1000 = ((selfDestructDuration * 1000 : ℕ) : ℚ) from by push_cast; ring]
    exact_mod_cast Iff.rfl
  refine ⟨rfl, hiff, ?_, ?_⟩
  · intro hgt
    rw [checkDestructStep, if_pos (hiff.mpr hgt)]
    constructor
    · simp [killOp, finishOp, removeFilesOp, List.mem_filter]
    · intro f hf
      rcases remove : (true : Bool) with _ | _
      · exact absurd remove (by simp)
      · simp only [killOp, finishOp, removeFilesOp, List.mem_filter, if_pos] at hf
        intro hpre
        simp [hpre] at hf
  · intro hle
    rw [checkDestructStep, if_neg (by simp [hiff, hle])]

/-- Witness for C8: identifier `abcd1234`, 60001 ms of inactivity, one
matching and one foreign file on disk, two registry entries. -/
theorem claimC8_self_destruct_witness :
    selfDestructDuration * 1000 < 60001
    ∧ checkDestructFires 60001 = true
    ∧ str "abcd1234" ∉ (checkDestructStep (str "abcd1234") 60001
        (⟨true, true, 0⟩,
          ⟨[str "abcd12340.ts", str "other.ts"],
            [str "abcd1234", str "zzzzzzzz"]⟩)).2.registry
    ∧ ∀ f ∈ (checkDestructStep (str "abcd1234") 60001
        (⟨true, true, 0⟩,
          ⟨[str "abcd12340.ts", str "other.ts"],
            [str "abcd1234", str "zzzzzzzz"]⟩)).2.files, ¬ str "abcd1234" <+: f := by
  have h := claimC8_self_destruct (str "abcd1234") 60001 ⟨true, true, 0⟩
    ⟨[str "abcd12340.ts", str "other.ts"], [str "abcd1234", str "zzzzzzzz"]⟩
  have hgt : selfDestructDuration * 1000 < 60001 := by decide
  exact ⟨hgt, h.2.1.mpr hgt, (h.2.2.1 hgt).1, (h.2.2.1 hgt).2⟩

end RtspHls
